import Mathlib

/-!
Verification development for the adaptive chunking subsystem of a RAG
document-ingestion backend.  The definitions below are a shallow embedding of
the Python sources `src/services/adaptive_chunker.py` and
`src/services/chunking_strategy.py`: pure Python functions become Lean
functions over `String` / `List`, the stateful grouping loop becomes explicit
state passing, and Python `None` / fallible indexing are modelled with
`Option`.  Python regular-expression scans are embedded as structurally
recursive character scanners that reproduce the leftmost, non-overlapping
`re.sub` / `re.search` behaviour on the character classes the code uses.
Python string functions (`str.lower`, `str.strip`, `str.splitlines`, `\w`,
`\s`) are embedded at Latin-1 precision, which covers every character the
source and its data use.
-/

/-! ## Character-level helpers shared by both modules -/

/-- Python `str.lower` restricted to ASCII plus the Latin-1 block
(`À`–`Þ` map to `à`–`þ`, `×` excepted), which covers every character used by
the source. -/
def pyLowerChar (c : Char) : Char :=
  if 'A' ≤ c ∧ c ≤ 'Z' then Char.ofNat (c.toNat + 32)
  else if 'À' ≤ c ∧ c ≤ 'Þ' ∧ c ≠ '×' then Char.ofNat (c.toNat + 32)
  else c

/-- Python `str.lower` on a string (per-character map in this range). -/
def pyLower (s : String) : String :=
  String.mk (s.data.map pyLowerChar)

/-- Python `str.strip()`: drop leading and trailing whitespace.  (Defined
over the character list so that it evaluates by kernel reduction.) -/
def pyStrip (s : String) : String :=
  String.mk
    (((s.data.dropWhile Char.isWhitespace).reverse.dropWhile
        Char.isWhitespace).reverse)

/-- Split a character list at every separator position (separators are
dropped; empty pieces are kept, as in `str.split(sep)`). -/
def splitOnPred (p : Char → Bool) : List Char → List Char → List (List Char)
  | acc, [] => [acc.reverse]
  | acc, c :: cs =>
    if p c then acc.reverse :: splitOnPred p [] cs
    else splitOnPred p (c :: acc) cs

/-- `sep.join(pieces)` on character lists. -/
def joinWith (sep : List Char) : List (List Char) → List Char
  | [] => []
  | [x] => x
  | x :: xs => x ++ sep ++ joinWith sep xs

/-- Python `sep.join(strings)`. -/
def strIntercalate (sep : String) (l : List String) : String :=
  String.mk (joinWith sep.data (l.map String.data))

/-- Python regex `\w` (word character) at Latin-1 precision: alphanumerics,
underscore, the superscript digits the formula code uses, and Latin-1
letters. -/
def isPyWordChar (c : Char) : Bool :=
  c.isAlphanum || c == '_' || c == '²' || c == '³' ||
    (decide ('À' ≤ c) && decide (c ≤ 'ÿ') && !(c == '×') && !(c == '÷'))

/-- Substring test on character lists: Python `needle in hay`. -/
def listContains (needle : List Char) : List Char → Bool
  | [] => needle.isEmpty
  | c :: cs => needle.isPrefixOf (c :: cs) || listContains needle cs

/-- Python `needle in hay` on strings. -/
def strContains (hay needle : String) : Bool :=
  listContains needle.data hay.data

/-- Python `str.splitlines` restricted to `\n` / `\r` / `\r\n` terminators.
Unlike Python this keeps trailing empty pieces, but both call sites filter
blank lines immediately afterwards, so the results agree. -/
def splitlines (s : String) : List String :=
  (splitOnPred (fun c => c == '\n' || c == '\r') [] s.data).map String.mk

/-- Python `str.split()` with no separator: split on whitespace runs,
dropping empty tokens. -/
def pySplitWs (s : String) : List String :=
  ((splitOnPred (fun c => c.isWhitespace) [] s.data).map String.mk).filter
    (fun t => t ≠ "")

/-- Word-boundary guard for `\b` before a candidate match: no previous
character, or previous character is not a word character.  (All searched
tokens start and end with word characters.) -/
def boundaryB : Option Char → Bool
  | none => true
  | some p => !(isPyWordChar p)

/-- The token `tok` occurs at the head of `l` and is followed by a word
boundary. -/
def tokenAt (tok : List Char) (l : List Char) : Bool :=
  tok.isPrefixOf l &&
    (match l.drop tok.length with
     | [] => true
     | c :: _ => !(isPyWordChar c))

/-- Scanner for `re.search(r"\b(tok1|tok2|...)\b", s)`: some token occurs at
some position surrounded by word boundaries. -/
def wordSearchAux (toks : List (List Char)) : Option Char → List Char → Bool
  | _, [] => false
  | prev, c :: cs =>
    (boundaryB prev && toks.any (fun tok => tokenAt tok (c :: cs))) ||
      wordSearchAux toks (some c) cs

/-- Whole-word search for any of `toks` in `s`. -/
def pyWordSearch (toks : List String) (s : String) : Bool :=
  wordSearchAux (toks.map String.data) none s.data

/-! ## Embedding of `src/services/adaptive_chunker.py` -/

/-- The alternation of `r"\b(warning|caution|aten[çc][aã]o|aviso|advert[êe]ncia)\b"`
expanded into its token list. -/
def hazardTokens : List String :=
  ["warning", "caution", "atenção", "atençao", "atencão", "atencao",
   "aviso", "advertência", "advertencia"]

/-- `re.search` of the hazard regex over the lowercased text (rule 1). -/
def hazardFound (low : String) : Bool :=
  pyWordSearch hazardTokens low

/-- Rule 2 condition: `"tabela" in text_low or "table" in text_low or
"tabla" in text_low or "|" in t`. -/
def tableKeyword (low t : String) : Bool :=
  strContains low "tabela" || strContains low "table" ||
    strContains low "tabla" || strContains t "|"

/-- `re.match(r'^\d+[\.\)]\s+', l)`: digits, then `.` or `)`, then at least
one whitespace character. -/
def digitStepB (l : String) : Bool :=
  match l.data with
  | [] => false
  | c :: rest =>
    c.isDigit &&
      (match rest.drop (rest.takeWhile Char.isDigit).length with
       | p :: rest' =>
         (p == '.' || p == ')') &&
           (match rest' with
            | w :: _ => w.isWhitespace
            | [] => false)
       | [] => false)

/-- `re.match(r'^[-*•]\s+', l)`: a bullet marker then whitespace. -/
def bulletStepB (l : String) : Bool :=
  match l.data with
  | [] => false
  | c :: rest =>
    (c == '-' || c == '*' || c == '•') &&
      (match rest with
       | w :: _ => w.isWhitespace
       | [] => false)

/-- `re.match(r'^(\d+[\.\)]\s+|[-*•]\s+)', l)`: a step-marker line. -/
def isStepLikeB (l : String) : Bool :=
  digitStepB l || bulletStepB l

/-- The stripped, non-blank lines of the (stripped) text, as computed by
`[l.strip() for l in t.splitlines() if l.strip()]`. -/
def blockLines (t : String) : List String :=
  ((splitlines t).map pyStrip).filter (fun l => l ≠ "")

/-- `step_like`: how many lines match the step-marker pattern (rule 3). -/
def stepLikeCount (lines : List String) : Nat :=
  (lines.filter isStepLikeB).length

/-- One line of the rule-4 numeric-table heuristic: skipped if it is an
enumerated step, otherwise counted when it starts with a digit, has at least
two digit-bearing tokens, or mentions `hrs`. -/
def numericLikeB (l : String) : Bool :=
  if digitStepB l then false
  else
    let lower := pyLower l
    let toks := pySplitWs l
    let numToks := (toks.filter (fun tok => tok.data.any Char.isDigit)).length
    let hasHrs := strContains lower "hrs"
    (match l.data with
     | c :: _ => c.isDigit
     | [] => false) || decide (2 ≤ numToks) || hasHrs

/-- `numeric_like_lines` in rule 4. -/
def numericLikeCount (lines : List String) : Nat :=
  (lines.filter numericLikeB).length

/-- `re.search(r'[=<>×÷±/]|√|∑|Σ', t)`. -/
def hasMathSymbol (t : String) : Bool :=
  t.data.any (fun c =>
    c == '=' || c == '<' || c == '>' || c == '×' || c == '÷' ||
      c == '±' || c == '/' || c == '√' || c == '∑' || c == 'Σ')

/-- `re.search(r'\b(cos|sen|sin|tan|log|ln)\b', text_low)`. -/
def hasMathWord (low : String) : Bool :=
  pyWordSearch ["cos", "sen", "sin", "tan", "log", "ln"] low

/-- `re.search(r'\d', t)`. -/
def hasDigit (t : String) : Bool :=
  t.data.any Char.isDigit

/-- Scanner for the tail of `re.match(r"^\d+(\.\d+)+\s", t)` after the
leading digit run.  `st = 0`: at a group boundary; `st = 1`: just consumed a
dot, need a digit; `st = 2`: inside a group digit run.  `n` counts completed
`\.\d+` groups. -/
def conceptScan : List Char → Nat → Nat → Bool
  | [], _, _ => false
  | c :: rest, st, n =>
    if st == 0 then
      (if c == '.' then conceptScan rest 1 n
       else c.isWhitespace && decide (1 ≤ n))
    else if st == 1 then
      c.isDigit && conceptScan rest 2 n
    else
      (if c.isDigit then conceptScan rest 2 n
       else if c == '.' then conceptScan rest 1 (n + 1)
       else c.isWhitespace && decide (1 ≤ n + 1))

/-- `re.match(r"^\d+(\.\d+)+\s", t)` (rule 6, hierarchical numbering). -/
def isConceptualHead (t : String) : Bool :=
  match t.data with
  | [] => false
  | c :: rest => c.isDigit && conceptScan (rest.dropWhile Char.isDigit) 0 0

/-- `detect_block_type` from `adaptive_chunker.py`: the ordered decision
list over structural/lexical heuristics. -/
def detect_block_type (text : String) : String :=
  let t := pyStrip text
  let low := pyLower t
  let lines := blockLines t
  if hazardFound low then "warning"
  else if tableKeyword low t then "table"
  else if 2 ≤ stepLikeCount lines then "procedure"
  else if 3 ≤ lines.length ∧ 2 ≤ numericLikeCount lines then "table"
  else if (hasMathSymbol t && hasDigit t) || hasMathWord low then "formula"
  else if isConceptualHead t then "conceptual"
  else "narrative"

/-- The record returned by `get_chunk_params` (`chunk_size`,
`chunk_overlap`, `separators`). -/
structure ChunkConfig where
  chunk_size : Nat
  chunk_overlap : Nat
  separators : List String
deriving DecidableEq, Repr

/-- `get_chunk_params` from `adaptive_chunker.py`: the static lookup table
with `params_map.get(block_type, params_map["narrative"])` semantics — the
final `else` covers both the `"narrative"` key and the fallback. -/
def get_chunk_params (block_type : String) : ChunkConfig :=
  if block_type = "table" then ⟨300, 50, ["\n", "|", ";", ","]⟩
  else if block_type = "formula" then ⟨1200, 150, ["\n\n", "\n", ".", ";"]⟩
  else if block_type = "conceptual" then ⟨1200, 150, ["\n\n", "\n", ".", ";"]⟩
  else if block_type = "procedure" then ⟨400, 80, ["\n", "\n\n", ".", ";"]⟩
  else if block_type = "warning" then
    ⟨250, 20, ["WARNING:", "CAUTION:", "ATENÇÃO:", "AVISO:", "\n"]⟩
  else ⟨800, 100, ["\n\n", "\n", ".", ";", " "]⟩

/-! ## Embedding of `src/services/chunking_strategy.py` — FormulaReconstructor -/

/-- `FormulaReconstructor.is_formula_fragment`. -/
def is_formula_fragment (text : String) : Bool :=
  let t := pyStrip text
  if decide (t.length ≤ 3) &&
      t.data.any (fun c =>
        c == '=' || c == '(' || c == ')' || c == '²' || c == '³' ||
          c == '+' || c == '-' || c == '×' || c == '/') then true
  else if decide (t.length ≤ 2) &&
      ((!t.data.isEmpty && t.data.all Char.isDigit) ||
       (!t.data.isEmpty && t.data.all Char.isAlpha)) then true
  else if t == "=" || t == "+" || t == "-" || t == "×" || t == "/" ||
      t == "(" || t == ")" || t == "²" || t == "³" then true
  else false

/-- Does `l` start with a word character (the `(?!\w)` lookahead test)? -/
def headIsWord : List Char → Bool
  | [] => false
  | c :: _ => isPyWordChar c

/-- One pass of `re.sub(r'(\w)\s+d(?!\w)', r'\1SUP', text)` for a fixed
digit `d` and its superscript `sup`.  The scanner holds the last unemitted
word character `w` together with the run `ws` of whitespace read after it;
on seeing `d` with a nonempty run and a non-word lookahead it emits `w`
followed by `sup` and resumes after the digit, exactly as the
leftmost, non-overlapping `re.sub` does. -/
def powScan (d sup : Char) : Option (Char × List Char) → List Char → List Char
  | none, [] => []
  | some (w, ws), [] => w :: ws
  | none, c :: rest =>
    if isPyWordChar c then powScan d sup (some (c, [])) rest
    else c :: powScan d sup none rest
  | some (w, ws), c :: rest =>
    if c.isWhitespace then powScan d sup (some (w, ws ++ [c])) rest
    else if c == d && !ws.isEmpty && !headIsWord rest then
      w :: sup :: powScan d sup none rest
    else if isPyWordChar c then (w :: ws) ++ powScan d sup (some (c, [])) rest
    else (w :: ws) ++ (c :: powScan d sup none rest)

/-- `FormulaReconstructor._normalize_powers`: the `2` pass then the `3`
pass. -/
def normalize_powers (text : String) : String :=
  String.mk (powScan '3' '³' none (powScan '2' '²' none text.data))

/-- One pass of `re.sub(r'\s*OP\s*', rep, text)` where `OP` is a character
class.  `pend` holds whitespace read but not yet emitted (the candidate
leading `\s*` of a match); `afterOp` is true while consuming the trailing
`\s*` of a replacement just made. -/
def opScan (isOp : Char → Bool) (rep : List Char) :
    List Char → Bool → List Char → List Char
  | pend, afterOp, [] => if afterOp then [] else pend
  | _, true, c :: rest =>
    if c.isWhitespace then opScan isOp rep [] true rest
    else if isOp c then rep ++ opScan isOp rep [] true rest
    else c :: opScan isOp rep [] false rest
  | pend, false, c :: rest =>
    if c.isWhitespace then opScan isOp rep (pend ++ [c]) false rest
    else if isOp c then rep ++ opScan isOp rep [] true rest
    else (pend ++ [c]) ++ opScan isOp rep [] false rest

/-- `FormulaReconstructor._normalize_operators`: multiplication (`.` or
`×`) to a spaced `×`, then division, then equality. -/
def normalize_operators (text : String) : String :=
  let s1 := opScan (fun c => c == '.' || c == '×') (" × ".data) [] false text.data
  let s2 := opScan (fun c => c == '/') (" / ".data) [] false s1
  String.mk (opScan (fun c => c == '=') (" = ".data) [] false s2)

/-- `re.sub(r'\s+', ' ', ...)`: collapse each whitespace run to one space.
The flag records whether the previous character was whitespace. -/
def collapseWs : Bool → List Char → List Char
  | _, [] => []
  | prevWs, c :: cs =>
    if c.isWhitespace then
      (if prevWs then collapseWs true cs else ' ' :: collapseWs true cs)
    else c :: collapseWs false cs

/-- `FormulaReconstructor._normalize_spacing` (also the whitespace collapse
inside `_create_chunk`): collapse runs, then strip. -/
def normalize_spacing (text : String) : String :=
  pyStrip (String.mk (collapseWs false text.data))

/-- `FormulaReconstructor.reconstruct_formula`. -/
def reconstruct_formula (fragments : List String) : String :=
  if fragments = [] then ""
  else
    let joined :=
      strIntercalate " "
        ((fragments.map pyStrip).filter (fun f => f ≠ ""))
    normalize_spacing (normalize_operators (normalize_powers joined))

/-! ## Embedding of `chunking_strategy.py` — SemanticChunker -/

/-- The fixed closed set of minor headers in `_is_minor_header`. -/
def minorHeaders : List String :=
  ["exemplo", "exemplos", "nota", "notas",
   "observação", "observacao", "observações", "observacoes",
   "atenção", "atencao", "importante", "dica", "dicas", "aviso", "avisos"]

/-- `SemanticChunker._is_minor_header`. -/
def is_minor_header (header : String) : Bool :=
  if header = "" then false
  else
    let h := pyLower (pyStrip header)
    let h := if h.data.getLast? == some ':' then pyStrip (String.mk h.data.dropLast)
             else h
    minorHeaders.contains h

/-- Constructor parameters of `SemanticChunker`; defaults as in
`__init__`. -/
structure ChunkerCfg where
  min_chunk_size : Nat := 300
  max_chunk_size : Nat := 1000
  overlap_size : Nat := 100
deriving DecidableEq, Repr

/-- One input element, as read by `group_elements` via `element.get`:
a missing `text` key is the empty string, a missing `page` is `0`, a
missing `type` is `"text"`, a missing `section_header` is the empty
string, so the dictionary is modelled as a record of the defaulted
values. -/
structure Element where
  text : String := ""
  page : Nat := 0
  type : String := "text"
  section_header : String := ""
deriving DecidableEq, Repr

/-- One buffered sub-element (the dictionaries appended to
`current_buffer`).  Synthetic items (reconstructed formulas, overlap
carry-over) carry no `section` key in Python; `_create_chunk` reads it with
`.get('section', '')`, so the missing key is modelled as `""` in `sect`. -/
structure BufItem where
  text : String
  page : Nat
  type : String
  element_id : Nat
  sect : String := ""
deriving DecidableEq, Repr

/-- The metadata dictionary built in `_create_chunk`.  Python stores
`list(set(types))`, whose iteration order is unspecified; it is embedded as
`List.dedup` of the type list, a fixed representative of that set. -/
structure ChunkMeta where
  num_elements : Nat
  types : List String
  sect : String
  has_formula : Bool
deriving DecidableEq, Repr

/-- The `SemanticChunk` dataclass. -/
structure SemanticChunk where
  text : String
  page : Nat
  chunk_type : String
  element_ids : List Nat
  metadata : ChunkMeta
deriving DecidableEq, Repr

instance : Inhabited SemanticChunk :=
  ⟨⟨"", 0, "", [], ⟨0, [], "", false⟩⟩⟩

/-- `SemanticChunker._create_chunk`. -/
def create_chunk (cfg : ChunkerCfg) (buffer : List BufItem) :
    Option SemanticChunk :=
  match buffer with
  | [] => none
  | b0 :: _ =>
    let texts := buffer.filterMap (fun it =>
      let t := pyStrip it.text
      if t = "" then none
      else if it.type = "formula" ∨ it.type = "equation" then
        some ("\n" ++ t ++ "\n")
      else some t)
    let combined := normalize_spacing (strIntercalate " " texts)
    if combined.length < cfg.min_chunk_size ∧ buffer.length = 1 then none
    else
      let types := buffer.map (·.type)
      let ctype :=
        if types.contains "formula" || types.contains "equation" then
          (if types.contains "text" then "mixed" else "formula")
        else if types.contains "table" then "table"
        else "text"
      some { text := combined
             page := b0.page
             chunk_type := ctype
             element_ids := buffer.map (·.element_id)
             metadata :=
               { num_elements := buffer.length
                 types := types.dedup
                 sect := b0.sect
                 has_formula :=
                   types.contains "formula" || types.contains "equation" } }

/-- `SemanticChunker._get_overlap_text`.  The caller only invokes it with a
positive `overlap_size`; for `overlap_size = 0` Python slicing `[-0:]` would
return the whole string, a case `group_elements` never reaches. -/
def get_overlap_text (cfg : ChunkerCfg) (buffer : List BufItem) : String :=
  if buffer = [] then ""
  else
    let all_text :=
      strIntercalate " "
        ((buffer.filter (fun it => it.text ≠ "")).map (·.text))
    if all_text.length ≤ cfg.overlap_size then all_text
    else String.mk (all_text.data.drop (all_text.length - cfg.overlap_size))

/-- The loop state of `group_elements`: emitted chunks, the accumulation
buffer, its running character length, the page and section of the most
recently buffered element, and the formula-fragment buffer.  Python
initializes `current_page = None` (modelled by `Option`) and
`current_section = None`; the section is only ever used for truthiness and
inequality against a non-empty string, where `None` and `""` are
indistinguishable, so it is modelled as a `String` starting at `""`. -/
structure GState where
  chunks : List SemanticChunk
  buffer : List BufItem
  length : Nat
  page : Option Nat
  sect : String
  formulaBuf : List String
deriving Repr

/-- `current_page is not None and page != current_page`. -/
def pageChangedB (cur : Option Nat) (page : Nat) : Bool :=
  match cur with
  | none => false
  | some p => page != p

/-- `section_changed`: `current_section and section and
section != current_section and not self._is_minor_header(section)`. -/
def sectionChangedB (cur sec : String) : Bool :=
  cur != "" && sec != "" && sec != cur && !(is_minor_header sec)

/-- `should_split`: page change, qualifying section change, or maximum size
reached with the minimum already met. -/
def shouldSplitB (cfg : ChunkerCfg) (st : GState) (page : Nat)
    (text sec : String) : Bool :=
  pageChangedB st.page page || sectionChangedB st.sect sec ||
    (decide (cfg.max_chunk_size < st.length + text.length) &&
     decide (cfg.min_chunk_size ≤ st.length))

/-- The `if formula_buffer:` block at the top of a non-fragment iteration:
reconstruct, append as a synthetic `formula` sub-element when non-empty, and
clear the fragment buffer. -/
def flushFormula (page idx : Nat) (st : GState) : GState :=
  if st.formulaBuf = [] then st
  else
    let r := reconstruct_formula st.formulaBuf
    if r = "" then { st with formulaBuf := [] }
    else
      { st with
          buffer := st.buffer ++ [⟨r, page, "formula", idx, ""⟩]
          length := st.length + r.length
          formulaBuf := [] }

/-- The flush block under `if should_split and current_buffer:`: emit the
chunk built from the buffer (when `_create_chunk` accepts it) and reseed the
buffer — with the overlap carry-over element when overlap is configured,
empty otherwise. -/
def doSplit (cfg : ChunkerCfg) (page idx : Nat) (st : GState) : GState :=
  let st1 :=
    match create_chunk cfg st.buffer with
    | some c => { st with chunks := st.chunks ++ [c] }
    | none => st
  if 0 < cfg.overlap_size ∧ st.buffer ≠ [] then
    let ot := get_overlap_text cfg st.buffer
    { st1 with buffer := [⟨ot, page, "text", idx, ""⟩], length := ot.length }
  else
    { st1 with buffer := [], length := 0 }

/-- One iteration of the `for idx, element in enumerate(elements)` loop in
`group_elements`. -/
def groupStep (cfg : ChunkerCfg) (st : GState) (idx : Nat) (e : Element) :
    GState :=
  let text := pyStrip e.text
  let page := e.page
  if is_formula_fragment text = true ∨ e.type = "formula" then
    { st with formulaBuf := st.formulaBuf ++ [text] }
  else
    let st1 := flushFormula page idx st
    let st2 :=
      if shouldSplitB cfg st1 page text e.section_header = true ∧
          st1.buffer ≠ [] then
        doSplit cfg page idx st1
      else st1
    if text ≠ "" then
      { st2 with
          buffer := st2.buffer ++ [⟨text, page, e.type, idx, e.section_header⟩]
          length := st2.length + text.length
          page := some page
          sect := e.section_header }
    else st2

/-- The enumerate-fold over the element stream, carrying the running
index. -/
def group_fold (cfg : ChunkerCfg) : GState → Nat → List Element → GState
  | st, _, [] => st
  | st, idx, e :: es => group_fold cfg (groupStep cfg st idx e) (idx + 1) es

/-- The post-loop `if formula_buffer:` block of `group_elements`: a
trailing reconstructed formula is appended only when the main buffer is
non-empty (`current_page or 0` is `st.page.getD 0`, which also yields `0`
for a falsy page `0`).  Python does not update `current_length` here; it is
never read again. -/
def formulaTailStage (n : Nat) (st : GState) : GState :=
  if st.formulaBuf ≠ [] then
    let r := reconstruct_formula st.formulaBuf
    if r ≠ "" ∧ st.buffer ≠ [] then
      { st with buffer := st.buffer ++ [⟨r, st.page.getD 0, "formula", n, ""⟩] }
    else st
  else st

/-- The final `if current_buffer:` flush of `group_elements`. -/
def finalFlush (cfg : ChunkerCfg) (st : GState) : List SemanticChunk :=
  if st.buffer ≠ [] then
    match create_chunk cfg st.buffer with
    | some c => st.chunks ++ [c]
    | none => st.chunks
  else st.chunks

/-- `SemanticChunker.group_elements`: the loop, then the trailing-formula
append, then the final flush. -/
def group_elements (cfg : ChunkerCfg) (elements : List Element) :
    List SemanticChunk :=
  if elements = [] then []
  else
    finalFlush cfg
      (formulaTailStage elements.length
        (group_fold cfg ⟨[], [], 0, none, "", []⟩ 0 elements))

/-! ## Embedding of `chunking_strategy.py` — expand_context_with_neighbors -/

/-- The body of the `for idx in target_indices` loop: add the target, the
up-to-`nb` preceding indices (guarded by `idx - i >= 0` over Python ints,
i.e. `i + 1 ≤ idx`), and the up-to-`na` following indices (guarded by
`idx + i < len`).  `i` ranges over `range(1, n+1)`, written `k + 1` for
`k ∈ range n`. -/
def expandOne (len nb na : Nat) (s : Finset ℕ) (idx : Nat) : Finset ℕ :=
  let s1 := insert idx s
  let s2 := (List.range nb).foldl
    (fun s k => if k + 1 ≤ idx then insert (idx - (k + 1)) s else s) s1
  (List.range na).foldl
    (fun s k => if idx + (k + 1) < len then insert (idx + (k + 1)) s else s) s2

/-- The `expanded_indices` set after the whole loop. -/
def expandedIndices (len : Nat) (targets : List Nat) (nb na : Nat) :
    Finset ℕ :=
  targets.foldl (expandOne len nb na) ∅

/-- The list comprehension `[chunks[i] for i in ...]`: direct indexing,
where an out-of-range index raises `IndexError`, modelled as `none`. -/
def indexChunks (chunks : List SemanticChunk) : List Nat →
    Option (List SemanticChunk)
  | [] => some []
  | i :: is =>
    match chunks[i]?, indexChunks chunks is with
    | some c, some rest => some (c :: rest)
    | _, _ => none

/-- `expand_context_with_neighbors`.  Python's final
`[chunks[i] for i in sorted(expanded_indices)]` indexes the list directly
and raises `IndexError` when a target index is out of range, modelled by the
`Option` result of `indexChunks`. -/
def expand_context_with_neighbors (chunks : List SemanticChunk)
    (target_indices : List Nat) (n_before n_after : Nat) :
    Option (List SemanticChunk) :=
  indexChunks chunks
    ((expandedIndices chunks.length target_indices n_before n_after).sort
      (· ≤ ·))

/-- Modelled from the spec: the spec-side characterization of the expanded
index set — for each target, itself plus up to `nb` preceding and up to `na`
following indices clipped to `[0, len - 1]`, duplicates collapsed, sorted
ascending.  Used only to state the refinement claim about
`expand_context_with_neighbors`. -/
def expandSpecIndices (len : Nat) (targets : List Nat) (nb na : Nat) :
    List Nat :=
  (List.range len).filter (fun j =>
    targets.any (fun t =>
      j == t || (decide (j < t) && decide (t ≤ j + nb)) ||
        (decide (t < j) && decide (j ≤ t + na))))

/-! ## Concrete inputs used by witnesses and counterexamples -/

/-- A tiny configuration whose minimum is met by short strings; used only to
instantiate proved theorems on concrete data. -/
def demoCfg : ChunkerCfg := { min_chunk_size := 3 }

/-- A buffer holding a reconstructed-formula sub-element and a
`paragraph`-typed element. -/
def demoBuf3 : List BufItem :=
  [⟨"=", 1, "formula", 1, ""⟩, ⟨"a long paragraph text", 1, "paragraph", 1, ""⟩]

/-- Ten distinct chunks, for the neighbor-expansion example. -/
def demoChunks : List SemanticChunk :=
  (List.range 10).map (fun i => { text := "c"
                                  page := i
                                  chunk_type := "text"
                                  element_ids := [i]
                                  metadata := ⟨1, ["text"], "", false⟩ })

/-- A grouper state with a non-empty buffer, current section `"Overview"`,
current page `1`, and running length above `demoCfg`'s minimum. -/
def demoSt5 : GState :=
  ⟨[], [⟨"body text", 1, "text", 0, "Overview"⟩], 9, some 1, "Overview", []⟩

/-- An element opening the `"Safety Procedures"` section on the same
page. -/
def demoE5 : Element := ⟨"tail", 1, "text", "Safety Procedures"⟩

/-- Five plain-text elements: two on page 1, three on page 2. -/
def demoE41 : Element := ⟨"alpha", 1, "text", ""⟩

def demoE42 : Element := ⟨"bravo", 1, "text", ""⟩

def demoE43 : Element := ⟨"carlo", 2, "text", ""⟩

def demoE44 : Element := ⟨"delta", 2, "text", ""⟩

def demoE45 : Element := ⟨"echo!", 2, "text", ""⟩

/-! ## Theorems -/

/-- Claim C6: `reconstruct_formula` joins the fragments
`["U","2","P","=","(W)"]` with single spaces, turns the digit `2` after `U`
into the attached superscript glyph, pads `=` with exactly one space on each
side — yielding exactly `"U² P = (W)"` — and returns the empty string on the
empty fragment list. -/
theorem C6_reconstruct_example :
    reconstruct_formula ["U", "2", "P", "=", "(W)"] = "U² P = (W)" ∧
      reconstruct_formula [] = "" := by
  decide

/-- Claim C8: whenever the lowercased, stripped text contains a hazard
token as a whole word, `detect_block_type` returns `"warning"` — the hazard
rule is evaluated first, so no pipe character or later rule can preempt
it. -/
theorem C8_warning_precedence (text : String)
    (h : hazardFound (pyLower (pyStrip text)) = true) :
    detect_block_type text = "warning" := by
  simp [detect_block_type, h]

/-- Witness for C8 on a text that also contains a pipe character and two
step-marker lines. -/
theorem C8_warning_precedence_witness :
    hazardFound (pyLower (pyStrip "CAUTION: do not touch | 1. a\n2. b")) = true ∧
      detect_block_type "CAUTION: do not touch | 1. a\n2. b" = "warning" :=
  ⟨by decide, C8_warning_precedence "CAUTION: do not touch | 1. a\n2. b" (by decide)⟩

/-- Claim C2, counterexample: the text `"- a |\n- b"` has two step-marker
lines and no hazard token, yet `detect_block_type` returns `"table"` (the
pipe rule precedes the procedure rule), not `"procedure"` as the claim
states. -/
theorem C2_counterexample :
    2 ≤ stepLikeCount (blockLines (pyStrip "- a |\n- b")) ∧
      hazardFound (pyLower (pyStrip "- a |\n- b")) = false ∧
      detect_block_type "- a |\n- b" = "table" := by
  decide

/-- Claim C2 as amended: a block with at least two step-marker lines is
classified `"procedure"` provided it contains no whole-word hazard token
(which would yield `"warning"`) and also triggers no table keyword — no
`table`/`tabela`/`tabla` substring and no pipe character (which would yield
`"table"`). -/
theorem C2_amended_procedure (text : String)
    (hstep : 2 ≤ stepLikeCount (blockLines (pyStrip text)))
    (hhaz : hazardFound (pyLower (pyStrip text)) = false)
    (htab : tableKeyword (pyLower (pyStrip text)) (pyStrip text) = false) :
    detect_block_type text = "procedure" := by
  simp [detect_block_type, hhaz, htab, hstep]

/-- Witness for the amended C2 on a two-step numbered list. -/
theorem C2_amended_witness :
    2 ≤ stepLikeCount (blockLines (pyStrip "1. open\n2. close")) ∧
      hazardFound (pyLower (pyStrip "1. open\n2. close")) = false ∧
      tableKeyword (pyLower (pyStrip "1. open\n2. close")) (pyStrip "1. open\n2. close") = false ∧
      detect_block_type "1. open\n2. close" = "procedure" :=
  ⟨by decide, by decide, by decide,
    C2_amended_procedure "1. open\n2. close" (by decide) (by decide) (by decide)⟩

/-- Claim C10: the table-indicator words are matched as substrings, not
whole words — any text whose lowercased, stripped form contains `table`,
`tabela` or `tabla` as a substring (even inside a longer word) and no
whole-word hazard token is classified `"table"`. -/
theorem C10_table_substring (text : String)
    (hhaz : hazardFound (pyLower (pyStrip text)) = false)
    (htab : strContains (pyLower (pyStrip text)) "table" = true ∨
      strContains (pyLower (pyStrip text)) "tabela" = true ∨
      strContains (pyLower (pyStrip text)) "tabla" = true) :
    detect_block_type text = "table" := by
  have h2 : tableKeyword (pyLower (pyStrip text)) (pyStrip text) = true := by
    rcases htab with h | h | h <;> simp [tableKeyword, h]
  simp [detect_block_type, hhaz, h2]

/-- Witness for C10: `"table"` occurs only inside the word
`"comfortable"`. -/
theorem C10_table_substring_witness :
    strContains (pyLower (pyStrip "a comfortable chair")) "table" = true ∧
      detect_block_type "a comfortable chair" = "table" :=
  ⟨by decide,
    C10_table_substring "a comfortable chair" (by decide) (Or.inl (by decide))⟩

/-- Claim C9: `detect_block_type` is total — every string, the empty one
included, is assigned one of the six content categories — and
`get_chunk_params` is total with the narrative configuration
(`chunk_size` 800, `chunk_overlap` 100) as the fallback for any input
outside the six known categories. -/
theorem C9_totality :
    (∀ s : String,
      detect_block_type s = "warning" ∨ detect_block_type s = "table" ∨
      detect_block_type s = "procedure" ∨ detect_block_type s = "formula" ∨
      detect_block_type s = "conceptual" ∨ detect_block_type s = "narrative") ∧
    (∀ bt : String,
      bt ∉ ["warning", "table", "procedure", "formula", "conceptual", "narrative"] →
      get_chunk_params bt = ⟨800, 100, ["\n\n", "\n", ".", ";", " "]⟩) := by
  constructor
  · intro s
    simp only [detect_block_type]
    split_ifs <;> simp
  · intro bt h
    simp only [List.mem_cons, List.not_mem_nil, or_false, not_or] at h
    obtain ⟨h1, h2, h3, h4, h5, h6⟩ := h
    simp [get_chunk_params, h1, h2, h3, h4, h5]

/-- Witness for C9 at the empty string and an unknown category name. -/
theorem C9_totality_witness :
    (detect_block_type "" = "warning" ∨ detect_block_type "" = "table" ∨
      detect_block_type "" = "procedure" ∨ detect_block_type "" = "formula" ∨
      detect_block_type "" = "conceptual" ∨ detect_block_type "" = "narrative") ∧
      get_chunk_params "mystery" = ⟨800, 100, ["\n\n", "\n", ".", ";", " "]⟩ :=
  ⟨C9_totality.1 "", C9_totality.2 "mystery" (by decide)⟩

/-- Claim C3, counterexample: grouping a formula fragment followed by a
`paragraph`-typed element yields one chunk containing both the reconstructed
formula sub-element and the paragraph element, and its `chunk_type` is
`"formula"`, not `"mixed"` — the element type `paragraph` is not rewritten
to `text`, and the `mixed` condition requires the literal type `"text"`. -/
theorem C3_counterexample :
    (group_elements {} [⟨"=", 1, "text", ""⟩,
        ⟨"a long paragraph text", 1, "paragraph", ""⟩]).map
      (fun c => (c.chunk_type, c.metadata.types)) =
      [("formula", ["formula", "paragraph"])] := by
  decide

/-- Claim C3 as amended: `group_elements` keeps every element's type string
unchanged (only a missing key defaults to `text`), so a chunk whose buffer
contains a formula-typed sub-element and no literally `"text"`-typed
sub-element gets `chunk_type` `"formula"`, even when the buffer holds
elements of unrecognized plain-text types such as `"paragraph"`. -/
theorem C3_amended_formula_type (cfg : ChunkerCfg) (buffer : List BufItem)
    (c : SemanticChunk) (hc : create_chunk cfg buffer = some c)
    (hf : (buffer.map (·.type)).contains "formula" = true)
    (ht : (buffer.map (·.type)).contains "text" = false) :
    c.chunk_type = "formula" := by
  cases buffer with
  | nil => simp [create_chunk] at hc
  | cons b0 rest =>
    simp only [create_chunk] at hc
    split at hc
    · exact absurd hc (by simp)
    · cases hc
      simp at hf ht
      simp [hf, ht.1]
      exact ht.2

/-- Witness for the amended C3 on the two-element demo buffer. -/
theorem C3_amended_witness :
    (create_chunk demoCfg demoBuf3).map SemanticChunk.chunk_type =
      some "formula" := by
  cases hc : create_chunk demoCfg demoBuf3 with
  | none => exact absurd hc (by decide)
  | some c =>
    simp [C3_amended_formula_type demoCfg demoBuf3 c hc (by decide) (by decide)]

/-- Claim C1, counterexample: with the default configuration
(minimum 300), a page boundary after two short elements flushes a 2-element
buffer into a chunk of length 11 — far below the minimum — and that chunk is
the first of two, not the final remainder. -/
theorem C1_counterexample :
    (group_elements {} [⟨"alpha", 1, "text", ""⟩, ⟨"bravo", 1, "text", ""⟩,
        ⟨"charlie", 2, "text", ""⟩]).map (fun c => c.text.length) = [11, 19] ∧
      11 < ({} : ChunkerCfg).min_chunk_size := by
  decide

/-- `flushFormula` never touches the emitted chunk list. -/
theorem flushFormula_chunks (page idx : Nat) (st : GState) :
    (flushFormula page idx st).chunks = st.chunks := by
  simp only [flushFormula]
  split_ifs <;> rfl

/-- `doSplit` appends exactly the chunk `_create_chunk` builds from the
buffer (when it builds one). -/
theorem doSplit_chunks (cfg : ChunkerCfg) (page idx : Nat) (st : GState) :
    (doSplit cfg page idx st).chunks =
      st.chunks ++ (create_chunk cfg st.buffer).toList := by
  unfold doSplit
  cases hc : create_chunk cfg st.buffer <;> split_ifs <;> simp [hc]

/-- Every chunk present after one grouping step was already present or was
produced by `create_chunk` on some buffer. -/
theorem groupStep_chunks (cfg : ChunkerCfg) (st : GState) (idx : Nat)
    (e : Element) :
    (groupStep cfg st idx e).chunks = st.chunks ∨
      ∃ buf, (groupStep cfg st idx e).chunks =
        st.chunks ++ (create_chunk cfg buf).toList := by
  by_cases h1 : is_formula_fragment (pyStrip e.text) = true ∨ e.type = "formula"
  · left
    simp [groupStep, h1]
  · by_cases h2 :
        shouldSplitB cfg (flushFormula e.page idx st) e.page (pyStrip e.text)
            e.section_header = true ∧
          (flushFormula e.page idx st).buffer ≠ []
    · right
      refine ⟨(flushFormula e.page idx st).buffer, ?_⟩
      by_cases h3 : pyStrip e.text ≠ "" <;>
        simp [groupStep, h1, h2, h3, doSplit_chunks, flushFormula_chunks]
    · left
      by_cases h3 : pyStrip e.text ≠ "" <;>
        simp [groupStep, h1, h2, h3, flushFormula_chunks]

/-- Chunk provenance through the whole fold: any chunk of the final state
is an initial chunk or a `create_chunk` output. -/
theorem group_fold_chunks (cfg : ChunkerCfg) :
    ∀ (es : List Element) (st : GState) (idx : Nat) (c : SemanticChunk),
      c ∈ (group_fold cfg st idx es).chunks →
      c ∈ st.chunks ∨ ∃ buf, create_chunk cfg buf = some c := by
  intro es
  induction es with
  | nil => exact fun st idx c h => Or.inl h
  | cons e es ih =>
    intro st idx c h
    rcases ih (groupStep cfg st idx e) (idx + 1) c h with h' | h'
    · rcases groupStep_chunks cfg st idx e with hg | ⟨buf, hg⟩
      · exact Or.inl (hg ▸ h')
      · rw [hg] at h'
        rcases List.mem_append.mp h' with h'' | h''
        · exact Or.inl h''
        · right
          refine ⟨buf, ?_⟩
          cases hb : create_chunk cfg buf with
          | none => rw [hb] at h''; simp at h''
          | some c' =>
            rw [hb] at h''
            simp at h''
            rw [h'']
    · exact Or.inr h'

/-- The trailing-formula stage never touches the chunk list. -/
theorem formulaTailStage_chunks (n : Nat) (st : GState) :
    (formulaTailStage n st).chunks = st.chunks := by
  simp only [formulaTailStage]
  split_ifs <;> rfl

/-- Any chunk of the final flush is a state chunk or a `create_chunk`
output. -/
theorem finalFlush_chunks (cfg : ChunkerCfg) (st : GState)
    (c : SemanticChunk) (h : c ∈ finalFlush cfg st) :
    c ∈ st.chunks ∨ ∃ buf, create_chunk cfg buf = some c := by
  unfold finalFlush at h
  split_ifs at h
  · revert h
    cases hb : create_chunk cfg st.buffer with
    | none => exact Or.inl
    | some c' =>
      intro h
      rcases List.mem_append.mp h with h' | h'
      · exact Or.inl h'
      · simp at h'
        exact Or.inr ⟨st.buffer, by rw [hb, h']⟩
  · exact Or.inl h

/-- Every chunk emitted by `group_elements` is a `create_chunk` output. -/
theorem group_elements_create (cfg : ChunkerCfg) (elements : List Element)
    (c : SemanticChunk) (h : c ∈ group_elements cfg elements) :
    ∃ buf, create_chunk cfg buf = some c := by
  unfold group_elements at h
  split_ifs at h
  · simp at h
  · rcases finalFlush_chunks cfg _ c h with h' | h'
    · rw [formulaTailStage_chunks] at h'
      rcases group_fold_chunks cfg elements _ 0 c h' with h'' | h''
      · simp at h''
      · exact h''
    · exact h'

/-- A `create_chunk` output built from a single-element buffer meets the
configured minimum length. -/
theorem create_chunk_min (cfg : ChunkerCfg) (buf : List BufItem)
    (c : SemanticChunk) (h : create_chunk cfg buf = some c)
    (h1 : c.element_ids.length = 1) :
    cfg.min_chunk_size ≤ c.text.length := by
  cases buf with
  | nil => simp [create_chunk] at h
  | cons b0 rest =>
    simp only [create_chunk] at h
    split at h
    · exact absurd h (by simp)
    · rename_i hcond
      cases h
      simp only [List.length_map, List.length_cons] at h1 hcond ⊢
      omega

/-- Claim C1 as amended: every emitted `SemanticChunk` built from a single
buffered sub-element has text length at least `min_chunk_size` (that is all
`_create_chunk` guards); chunks built from several buffered sub-elements may
be shorter than the minimum even when they are not the final chunk, as the
counterexample shows. -/
theorem C1_amended_min_singleton (cfg : ChunkerCfg) (elements : List Element)
    (c : SemanticChunk) (hmem : c ∈ group_elements cfg elements)
    (h1 : c.element_ids.length = 1) :
    cfg.min_chunk_size ≤ c.text.length := by
  obtain ⟨buf, hbuf⟩ := group_elements_create cfg elements c hmem
  exact create_chunk_min cfg buf c hbuf h1

/-- Witness for the amended C1: one single-element chunk above the
minimum. -/
theorem C1_amended_witness :
    ((group_elements demoCfg [⟨"hello", 1, "text", ""⟩]).headD
        default).element_ids.length = 1 ∧
      demoCfg.min_chunk_size ≤
        ((group_elements demoCfg [⟨"hello", 1, "text", ""⟩]).headD
            default).text.length :=
  ⟨by decide,
    C1_amended_min_singleton demoCfg [⟨"hello", 1, "text", ""⟩]
      ((group_elements demoCfg [⟨"hello", 1, "text", ""⟩]).headD default)
      (by decide) (by decide)⟩

/-- A section change is never signalled when the sections agree or either
side is empty. -/
theorem sectionChangedB_same (cur sec : String)
    (h : cur = sec ∨ cur = "" ∨ sec = "") :
    sectionChangedB cur sec = false := by
  rcases h with h | h | h <;> simp [sectionChangedB, h]

/-- `should_split` is false when no page change, no section change and no
maximum-size overflow occur. -/
theorem shouldSplit_false (cfg : ChunkerCfg) (st : GState) (page : Nat)
    (text sec : String)
    (h1 : pageChangedB st.page page = false)
    (h2 : sectionChangedB st.sect sec = false)
    (h3 : st.length + text.length ≤ cfg.max_chunk_size) :
    shouldSplitB cfg st page text sec = false := by
  have h4 : ¬(cfg.max_chunk_size < st.length + text.length) := Nat.not_lt.mpr h3
  simp [shouldSplitB, h1, h2, h4]

/-- Claim C5: (i) a section change to a minor header never signals a
section change; (ii) hence with no page change and no maximum-size overflow
a minor-header section change never triggers a split; (iii) a change from
section `"Overview"` to `"Safety Procedures"` with no page change triggers
the split, and the grouping step then flushes the non-empty buffer through
`create_chunk`. -/
theorem C5_section_split (cfg : ChunkerCfg) (st : GState) (idx : Nat)
    (e : Element) :
    (∀ cur sec : String, is_minor_header sec = true →
      sectionChangedB cur sec = false) ∧
    (is_minor_header e.section_header = true →
      pageChangedB st.page e.page = false →
      st.length + (pyStrip e.text).length ≤ cfg.max_chunk_size →
      shouldSplitB cfg st e.page (pyStrip e.text) e.section_header = false) ∧
    (st.sect = "Overview" → e.section_header = "Safety Procedures" →
      st.page = some e.page → st.buffer ≠ [] →
      cfg.min_chunk_size < st.length →
      st.formulaBuf = [] →
      is_formula_fragment (pyStrip e.text) = false → e.type ≠ "formula" →
      shouldSplitB cfg st e.page (pyStrip e.text) e.section_header = true ∧
        (groupStep cfg st idx e).chunks =
          st.chunks ++ (create_chunk cfg st.buffer).toList) := by
  have minor : ∀ cur sec : String, is_minor_header sec = true →
      sectionChangedB cur sec = false := by
    intro cur sec h
    simp [sectionChangedB, h]
  refine ⟨minor, ?_, ?_⟩
  · intro hm hpage hmax
    exact shouldSplit_false cfg st e.page (pyStrip e.text) e.section_header
      hpage (minor _ _ hm) hmax
  · intro hsect hsec hpage hbuf hmin hfb hfrag htype
    have hchg : sectionChangedB st.sect e.section_header = true := by
      rw [hsect, hsec]; decide
    have hsp : shouldSplitB cfg st e.page (pyStrip e.text) e.section_header
        = true := by
      simp [shouldSplitB, hchg]
    refine ⟨hsp, ?_⟩
    have h1 : ¬(is_formula_fragment (pyStrip e.text) = true ∨
        e.type = "formula") := by
      simp [hfrag, htype]
    have hff : flushFormula e.page idx st = st := by
      simp [flushFormula, hfb]
    by_cases h3 : pyStrip e.text = ""
    · rw [h3] at h1 hsp
      simp [groupStep, h3, h1, hff, hsp, hbuf, doSplit_chunks]
    · simp [groupStep, h1, hff, hsp, hbuf, h3, doSplit_chunks]

/-- Witness for C5: the minor-header instances and a concrete
`"Overview"` to `"Safety Procedures"` split on `demoSt5` and `demoE5`. -/
theorem C5_section_split_witness :
    sectionChangedB "Overview" "Nota" = false ∧
      shouldSplitB demoCfg demoSt5 1 "abc" "Exemplo:" = false ∧
      (shouldSplitB demoCfg demoSt5 demoE5.page (pyStrip demoE5.text)
          demoE5.section_header = true ∧
        (groupStep demoCfg demoSt5 7 demoE5).chunks =
          demoSt5.chunks ++ (create_chunk demoCfg demoSt5.buffer).toList) := by
  refine ⟨(C5_section_split demoCfg demoSt5 7 demoE5).1 "Overview" "Nota"
    (by decide), ?_, ?_⟩
  · have h := (C5_section_split demoCfg
      ⟨[], [⟨"body text", 1, "text", 0, "Overview"⟩], 9, some 1, "Overview", []⟩
      7 ⟨"abc", 1, "text", "Exemplo:"⟩).2.1 (by decide) (by decide) (by decide)
    exact h
  · exact (C5_section_split demoCfg demoSt5 7 demoE5).2.2 (by decide)
      (by decide) (by decide) (by decide) (by decide) (by decide) (by decide)
      (by decide)

/-- Length of a string built from a dropped character list. -/
theorem length_mk_drop (l : List Char) (k : Nat) :
    (String.mk (l.drop k)).length = l.length - k := by
  simp [String.length]

/-- The overlap carry-over text never exceeds the configured overlap
size. -/
theorem get_overlap_text_le (cfg : ChunkerCfg) (buf : List BufItem) :
    (get_overlap_text cfg buf).length ≤ cfg.overlap_size := by
  simp only [get_overlap_text]
  split_ifs with h1 h2
  · simp [String.length]
  · exact h2
  · rw [length_mk_drop]
    simp only [String.length] at h2 ⊢
    omega

/-- Explicit form of `doSplit` on a non-empty buffer. -/
theorem doSplit_eq (cfg : ChunkerCfg) (page idx : Nat) (st : GState)
    (hbuf : st.buffer ≠ []) :
    doSplit cfg page idx st =
      { chunks := st.chunks ++ (create_chunk cfg st.buffer).toList
        buffer := if 0 < cfg.overlap_size then
            [⟨get_overlap_text cfg st.buffer, page, "text", idx, ""⟩] else []
        length := if 0 < cfg.overlap_size then
            (get_overlap_text cfg st.buffer).length else 0
        page := st.page
        sect := st.sect
        formulaBuf := st.formulaBuf } := by
  unfold doSplit
  cases hc : create_chunk cfg st.buffer <;>
    by_cases ho : 0 < cfg.overlap_size <;>
      simp [hc, ho, hbuf]

/-- A grouping step that triggers no flush appends the element to the
buffer and advances page and section. -/
theorem groupStep_plain (cfg : ChunkerCfg) (st : GState) (idx : Nat)
    (e : Element)
    (hfrag : is_formula_fragment (pyStrip e.text) = false)
    (htype : e.type ≠ "formula")
    (hfb : st.formulaBuf = [])
    (hsp : shouldSplitB cfg st e.page (pyStrip e.text) e.section_header = false)
    (htx : pyStrip e.text ≠ "") :
    groupStep cfg st idx e =
      { st with
          buffer := st.buffer ++
            [⟨pyStrip e.text, e.page, e.type, idx, e.section_header⟩]
          length := st.length + (pyStrip e.text).length
          page := some e.page
          sect := e.section_header } := by
  have h1 : ¬(is_formula_fragment (pyStrip e.text) = true ∨
      e.type = "formula") := by
    simp [hfrag, htype]
  have hff : flushFormula e.page idx st = st := by
    simp [flushFormula, hfb]
  simp [groupStep, h1, hff, hsp, htx]

/-- A grouping step on a page change flushes the buffer and reseeds it with
the overlap carry-over (when configured) plus the element itself. -/
theorem groupStep_pagesplit (cfg : ChunkerCfg) (st : GState) (idx : Nat)
    (e : Element)
    (hfrag : is_formula_fragment (pyStrip e.text) = false)
    (htype : e.type ≠ "formula")
    (hfb : st.formulaBuf = [])
    (htx : pyStrip e.text ≠ "")
    (hpage : pageChangedB st.page e.page = true)
    (hbuf : st.buffer ≠ []) :
    groupStep cfg st idx e =
      { chunks := st.chunks ++ (create_chunk cfg st.buffer).toList
        buffer := (if 0 < cfg.overlap_size then
            [⟨get_overlap_text cfg st.buffer, e.page, "text", idx, ""⟩]
          else []) ++ [⟨pyStrip e.text, e.page, e.type, idx, e.section_header⟩]
        length := (if 0 < cfg.overlap_size then
            (get_overlap_text cfg st.buffer).length else 0) +
          (pyStrip e.text).length
        page := some e.page
        sect := e.section_header
        formulaBuf := st.formulaBuf } := by
  have h1 : ¬(is_formula_fragment (pyStrip e.text) = true ∨
      e.type = "formula") := by
    simp [hfrag, htype]
  have hff : flushFormula e.page idx st = st := by
    simp [flushFormula, hfb]
  have hsp : shouldSplitB cfg st e.page (pyStrip e.text) e.section_header
      = true := by
    simp [shouldSplitB, hpage]
  simp [groupStep, h1, hff, hsp, hbuf, htx, doSplit_eq cfg e.page idx st hbuf]

/-- `create_chunk` always accepts a buffer of two or more sub-elements, and
the chunk's page is the first sub-element's page. -/
theorem create_chunk_multi (cfg : ChunkerCfg) (b0 b1 : BufItem)
    (rest : List BufItem) :
    ∃ c, create_chunk cfg (b0 :: b1 :: rest) = some c ∧ c.page = b0.page := by
  simp only [create_chunk]
  rw [if_neg]
  · exact ⟨_, rfl, rfl⟩
  · rintro ⟨-, h⟩
    simp at h

/-- Claim C4: on a 5-element stream with elements 1-2 on one page and
elements 3-5 on another, where every element has non-empty stripped text
that is neither a formula fragment nor formula-typed, all elements share one
(or an empty) section header, and the total text plus the overlap fits the
configured maximum, `group_elements` flushes exactly once — at the page
boundary — producing exactly 2 chunks whose pages are element 1's and
element 3's pages. -/
theorem C4_page_boundary (cfg : ChunkerCfg) (e1 e2 e3 e4 e5 : Element)
    (hp2 : e2.page = e1.page) (hp4 : e4.page = e3.page)
    (hp5 : e5.page = e3.page) (hpq : e1.page ≠ e3.page)
    (hall : ∀ e ∈ [e1, e2, e3, e4, e5],
      pyStrip e.text ≠ "" ∧ is_formula_fragment (pyStrip e.text) = false ∧
        e.type ≠ "formula")
    (hsec : ∃ s, ∀ e ∈ [e1, e2, e3, e4, e5],
      e.section_header = s ∨ e.section_header = "")
    (hmax : (pyStrip e1.text).length + (pyStrip e2.text).length +
        (pyStrip e3.text).length + (pyStrip e4.text).length +
        (pyStrip e5.text).length + cfg.overlap_size ≤ cfg.max_chunk_size) :
    ∃ c1 c2, group_elements cfg [e1, e2, e3, e4, e5] = [c1, c2] ∧
      c1.page = e1.page ∧ c2.page = e3.page := by
  obtain ⟨ht1, hf1, hy1⟩ := hall e1 (by simp)
  obtain ⟨ht2, hf2, hy2⟩ := hall e2 (by simp)
  obtain ⟨ht3, hf3, hy3⟩ := hall e3 (by simp)
  obtain ⟨ht4, hf4, hy4⟩ := hall e4 (by simp)
  obtain ⟨ht5, hf5, hy5⟩ := hall e5 (by simp)
  obtain ⟨s, hs⟩ := hsec
  have hsecpair : ∀ a b : Element,
      a.section_header = s ∨ a.section_header = "" →
      b.section_header = s ∨ b.section_header = "" →
      sectionChangedB a.section_header b.section_header = false := by
    intro a b ha hb
    apply sectionChangedB_same
    rcases ha with ha | ha
    · rcases hb with hb | hb
      · exact Or.inl (ha.trans hb.symm)
      · exact Or.inr (Or.inr hb)
    · exact Or.inr (Or.inl ha)
  -- step 1
  have hsp1 : shouldSplitB cfg ⟨[], [], 0, none, "", []⟩ e1.page
      (pyStrip e1.text) e1.section_header = false :=
    shouldSplit_false _ _ _ _ _ rfl
      (sectionChangedB_same _ _ (Or.inr (Or.inl rfl)))
      (by show 0 + (pyStrip e1.text).length ≤ cfg.max_chunk_size; omega)
  have h1 : groupStep cfg ⟨[], [], 0, none, "", []⟩ 0 e1 =
      ⟨[], [⟨pyStrip e1.text, e1.page, e1.type, 0, e1.section_header⟩],
        0 + (pyStrip e1.text).length, some e1.page, e1.section_header, []⟩ := by
    rw [groupStep_plain cfg _ 0 e1 hf1 hy1 rfl hsp1 ht1]
    rfl
  -- step 2
  have hsp2 : shouldSplitB cfg
      ⟨[], [⟨pyStrip e1.text, e1.page, e1.type, 0, e1.section_header⟩],
        0 + (pyStrip e1.text).length, some e1.page, e1.section_header, []⟩
      e2.page (pyStrip e2.text) e2.section_header = false :=
    shouldSplit_false _ _ _ _ _
      (by show pageChangedB (some e1.page) e2.page = false
          simp [pageChangedB, hp2])
      (hsecpair e1 e2 (hs e1 (by simp)) (hs e2 (by simp)))
      (by show 0 + (pyStrip e1.text).length + (pyStrip e2.text).length ≤
            cfg.max_chunk_size
          omega)
  have h2 : groupStep cfg
      ⟨[], [⟨pyStrip e1.text, e1.page, e1.type, 0, e1.section_header⟩],
        0 + (pyStrip e1.text).length, some e1.page, e1.section_header, []⟩
      1 e2 =
      ⟨[], [⟨pyStrip e1.text, e1.page, e1.type, 0, e1.section_header⟩,
          ⟨pyStrip e2.text, e2.page, e2.type, 1, e2.section_header⟩],
        0 + (pyStrip e1.text).length + (pyStrip e2.text).length,
        some e2.page, e2.section_header, []⟩ := by
    rw [groupStep_plain cfg _ 1 e2 hf2 hy2 rfl hsp2 ht2]
    rfl
  -- step 3: the page boundary
  have hpage3 : pageChangedB (some e2.page) e3.page = true := by
    simp [pageChangedB, hp2]
    omega
  have h3 : groupStep cfg
      ⟨[], [⟨pyStrip e1.text, e1.page, e1.type, 0, e1.section_header⟩,
          ⟨pyStrip e2.text, e2.page, e2.type, 1, e2.section_header⟩],
        0 + (pyStrip e1.text).length + (pyStrip e2.text).length,
        some e2.page, e2.section_header, []⟩
      2 e3 =
      ⟨(create_chunk cfg
          [⟨pyStrip e1.text, e1.page, e1.type, 0, e1.section_header⟩,
           ⟨pyStrip e2.text, e2.page, e2.type, 1, e2.section_header⟩]).toList,
        (if 0 < cfg.overlap_size then
          [⟨get_overlap_text cfg
              [⟨pyStrip e1.text, e1.page, e1.type, 0, e1.section_header⟩,
               ⟨pyStrip e2.text, e2.page, e2.type, 1, e2.section_header⟩],
            e3.page, "text", 2, ""⟩]
        else []) ++ [⟨pyStrip e3.text, e3.page, e3.type, 2, e3.section_header⟩],
        (if 0 < cfg.overlap_size then
          (get_overlap_text cfg
            [⟨pyStrip e1.text, e1.page, e1.type, 0, e1.section_header⟩,
             ⟨pyStrip e2.text, e2.page, e2.type, 1, e2.section_header⟩]).length
        else 0) + (pyStrip e3.text).length,
        some e3.page, e3.section_header, []⟩ := by
    rw [groupStep_pagesplit cfg _ 2 e3 hf3 hy3 rfl ht3 hpage3 (by simp)]
    rfl
  -- steps 4 and 5 stay on the new page
  have hOL : (if 0 < cfg.overlap_size then
      (get_overlap_text cfg
        [⟨pyStrip e1.text, e1.page, e1.type, 0, e1.section_header⟩,
         ⟨pyStrip e2.text, e2.page, e2.type, 1, e2.section_header⟩]).length
    else 0) ≤ cfg.overlap_size := by
    split_ifs
    · exact get_overlap_text_le _ _
    · omega
  have hsp4 : shouldSplitB cfg
      ⟨(create_chunk cfg
          [⟨pyStrip e1.text, e1.page, e1.type, 0, e1.section_header⟩,
           ⟨pyStrip e2.text, e2.page, e2.type, 1, e2.section_header⟩]).toList,
        (if 0 < cfg.overlap_size then
          [⟨get_overlap_text cfg
              [⟨pyStrip e1.text, e1.page, e1.type, 0, e1.section_header⟩,
               ⟨pyStrip e2.text, e2.page, e2.type, 1, e2.section_header⟩],
            e3.page, "text", 2, ""⟩]
        else []) ++ [⟨pyStrip e3.text, e3.page, e3.type, 2, e3.section_header⟩],
        (if 0 < cfg.overlap_size then
          (get_overlap_text cfg
            [⟨pyStrip e1.text, e1.page, e1.type, 0, e1.section_header⟩,
             ⟨pyStrip e2.text, e2.page, e2.type, 1, e2.section_header⟩]).length
        else 0) + (pyStrip e3.text).length,
        some e3.page, e3.section_header, []⟩
      e4.page (pyStrip e4.text) e4.section_header = false :=
    shouldSplit_false _ _ _ _ _
      (by show pageChangedB (some e3.page) e4.page = false
          simp [pageChangedB, hp4])
      (hsecpair e3 e4 (hs e3 (by simp)) (hs e4 (by simp)))
      (by show (if 0 < cfg.overlap_size then
              (get_overlap_text cfg
                [⟨pyStrip e1.text, e1.page, e1.type, 0, e1.section_header⟩,
                 ⟨pyStrip e2.text, e2.page, e2.type, 1, e2.section_header⟩]).length
            else 0) + (pyStrip e3.text).length + (pyStrip e4.text).length ≤
            cfg.max_chunk_size
          omega)
  have h4 : groupStep cfg
      ⟨(create_chunk cfg
          [⟨pyStrip e1.text, e1.page, e1.type, 0, e1.section_header⟩,
           ⟨pyStrip e2.text, e2.page, e2.type, 1, e2.section_header⟩]).toList,
        (if 0 < cfg.overlap_size then
          [⟨get_overlap_text cfg
              [⟨pyStrip e1.text, e1.page, e1.type, 0, e1.section_header⟩,
               ⟨pyStrip e2.text, e2.page, e2.type, 1, e2.section_header⟩],
            e3.page, "text", 2, ""⟩]
        else []) ++ [⟨pyStrip e3.text, e3.page, e3.type, 2, e3.section_header⟩],
        (if 0 < cfg.overlap_size then
          (get_overlap_text cfg
            [⟨pyStrip e1.text, e1.page, e1.type, 0, e1.section_header⟩,
             ⟨pyStrip e2.text, e2.page, e2.type, 1, e2.section_header⟩]).length
        else 0) + (pyStrip e3.text).length,
        some e3.page, e3.section_header, []⟩
      3 e4 =
      ⟨(create_chunk cfg
          [⟨pyStrip e1.text, e1.page, e1.type, 0, e1.section_header⟩,
           ⟨pyStrip e2.text, e2.page, e2.type, 1, e2.section_header⟩]).toList,
        ((if 0 < cfg.overlap_size then
          [⟨get_overlap_text cfg
              [⟨pyStrip e1.text, e1.page, e1.type, 0, e1.section_header⟩,
               ⟨pyStrip e2.text, e2.page, e2.type, 1, e2.section_header⟩],
            e3.page, "text", 2, ""⟩]
        else []) ++ [⟨pyStrip e3.text, e3.page, e3.type, 2, e3.section_header⟩])
          ++ [⟨pyStrip e4.text, e4.page, e4.type, 3, e4.section_header⟩],
        (if 0 < cfg.overlap_size then
          (get_overlap_text cfg
            [⟨pyStrip e1.text, e1.page, e1.type, 0, e1.section_header⟩,
             ⟨pyStrip e2.text, e2.page, e2.type, 1, e2.section_header⟩]).length
        else 0) + (pyStrip e3.text).length + (pyStrip e4.text).length,
        some e4.page, e4.section_header, []⟩ := by
    rw [groupStep_plain cfg _ 3 e4 hf4 hy4 rfl hsp4 ht4]
  have hsp5 : shouldSplitB cfg
      ⟨(create_chunk cfg
          [⟨pyStrip e1.text, e1.page, e1.type, 0, e1.section_header⟩,
           ⟨pyStrip e2.text, e2.page, e2.type, 1, e2.section_header⟩]).toList,
        ((if 0 < cfg.overlap_size then
          [⟨get_overlap_text cfg
              [⟨pyStrip e1.text, e1.page, e1.type, 0, e1.section_header⟩,
               ⟨pyStrip e2.text, e2.page, e2.type, 1, e2.section_header⟩],
            e3.page, "text", 2, ""⟩]
        else []) ++ [⟨pyStrip e3.text, e3.page, e3.type, 2, e3.section_header⟩])
          ++ [⟨pyStrip e4.text, e4.page, e4.type, 3, e4.section_header⟩],
        (if 0 < cfg.overlap_size then
          (get_overlap_text cfg
            [⟨pyStrip e1.text, e1.page, e1.type, 0, e1.section_header⟩,
             ⟨pyStrip e2.text, e2.page, e2.type, 1, e2.section_header⟩]).length
        else 0) + (pyStrip e3.text).length + (pyStrip e4.text).length,
        some e4.page, e4.section_header, []⟩
      e5.page (pyStrip e5.text) e5.section_header = false :=
    shouldSplit_false _ _ _ _ _
      (by show pageChangedB (some e4.page) e5.page = false
          simp [pageChangedB, hp4, hp5])
      (hsecpair e4 e5 (hs e4 (by simp)) (hs e5 (by simp)))
      (by show (if 0 < cfg.overlap_size then
              (get_overlap_text cfg
                [⟨pyStrip e1.text, e1.page, e1.type, 0, e1.section_header⟩,
                 ⟨pyStrip e2.text, e2.page, e2.type, 1, e2.section_header⟩]).length
            else 0) + (pyStrip e3.text).length + (pyStrip e4.text).length +
            (pyStrip e5.text).length ≤ cfg.max_chunk_size
          omega)
  have h5 : groupStep cfg
      ⟨(create_chunk cfg
          [⟨pyStrip e1.text, e1.page, e1.type, 0, e1.section_header⟩,
           ⟨pyStrip e2.text, e2.page, e2.type, 1, e2.section_header⟩]).toList,
        ((if 0 < cfg.overlap_size then
          [⟨get_overlap_text cfg
              [⟨pyStrip e1.text, e1.page, e1.type, 0, e1.section_header⟩,
               ⟨pyStrip e2.text, e2.page, e2.type, 1, e2.section_header⟩],
            e3.page, "text", 2, ""⟩]
        else []) ++ [⟨pyStrip e3.text, e3.page, e3.type, 2, e3.section_header⟩])
          ++ [⟨pyStrip e4.text, e4.page, e4.type, 3, e4.section_header⟩],
        (if 0 < cfg.overlap_size then
          (get_overlap_text cfg
            [⟨pyStrip e1.text, e1.page, e1.type, 0, e1.section_header⟩,
             ⟨pyStrip e2.text, e2.page, e2.type, 1, e2.section_header⟩]).length
        else 0) + (pyStrip e3.text).length + (pyStrip e4.text).length,
        some e4.page, e4.section_header, []⟩
      4 e5 =
      ⟨(create_chunk cfg
          [⟨pyStrip e1.text, e1.page, e1.type, 0, e1.section_header⟩,
           ⟨pyStrip e2.text, e2.page, e2.type, 1, e2.section_header⟩]).toList,
        (((if 0 < cfg.overlap_size then
          [⟨get_overlap_text cfg
              [⟨pyStrip e1.text, e1.page, e1.type, 0, e1.section_header⟩,
               ⟨pyStrip e2.text, e2.page, e2.type, 1, e2.section_header⟩],
            e3.page, "text", 2, ""⟩]
        else []) ++ [⟨pyStrip e3.text, e3.page, e3.type, 2, e3.section_header⟩])
          ++ [⟨pyStrip e4.text, e4.page, e4.type, 3, e4.section_header⟩])
          ++ [⟨pyStrip e5.text, e5.page, e5.type, 4, e5.section_header⟩],
        (if 0 < cfg.overlap_size then
          (get_overlap_text cfg
            [⟨pyStrip e1.text, e1.page, e1.type, 0, e1.section_header⟩,
             ⟨pyStrip e2.text, e2.page, e2.type, 1, e2.section_header⟩]).length
        else 0) + (pyStrip e3.text).length + (pyStrip e4.text).length +
          (pyStrip e5.text).length,
        some e5.page, e5.section_header, []⟩ := by
    rw [groupStep_plain cfg _ 4 e5 hf5 hy5 rfl hsp5 ht5]
  -- the final flush
  have hts : ∀ n, formulaTailStage n
      ⟨(create_chunk cfg
          [⟨pyStrip e1.text, e1.page, e1.type, 0, e1.section_header⟩,
           ⟨pyStrip e2.text, e2.page, e2.type, 1, e2.section_header⟩]).toList,
        (((if 0 < cfg.overlap_size then
          [⟨get_overlap_text cfg
              [⟨pyStrip e1.text, e1.page, e1.type, 0, e1.section_header⟩,
               ⟨pyStrip e2.text, e2.page, e2.type, 1, e2.section_header⟩],
            e3.page, "text", 2, ""⟩]
        else []) ++ [⟨pyStrip e3.text, e3.page, e3.type, 2, e3.section_header⟩])
          ++ [⟨pyStrip e4.text, e4.page, e4.type, 3, e4.section_header⟩])
          ++ [⟨pyStrip e5.text, e5.page, e5.type, 4, e5.section_header⟩],
        (if 0 < cfg.overlap_size then
          (get_overlap_text cfg
            [⟨pyStrip e1.text, e1.page, e1.type, 0, e1.section_header⟩,
             ⟨pyStrip e2.text, e2.page, e2.type, 1, e2.section_header⟩]).length
        else 0) + (pyStrip e3.text).length + (pyStrip e4.text).length +
          (pyStrip e5.text).length,
        some e5.page, e5.section_header, []⟩ =
      ⟨(create_chunk cfg
          [⟨pyStrip e1.text, e1.page, e1.type, 0, e1.section_header⟩,
           ⟨pyStrip e2.text, e2.page, e2.type, 1, e2.section_header⟩]).toList,
        (((if 0 < cfg.overlap_size then
          [⟨get_overlap_text cfg
              [⟨pyStrip e1.text, e1.page, e1.type, 0, e1.section_header⟩,
               ⟨pyStrip e2.text, e2.page, e2.type, 1, e2.section_header⟩],
            e3.page, "text", 2, ""⟩]
        else []) ++ [⟨pyStrip e3.text, e3.page, e3.type, 2, e3.section_header⟩])
          ++ [⟨pyStrip e4.text, e4.page, e4.type, 3, e4.section_header⟩])
          ++ [⟨pyStrip e5.text, e5.page, e5.type, 4, e5.section_header⟩],
        (if 0 < cfg.overlap_size then
          (get_overlap_text cfg
            [⟨pyStrip e1.text, e1.page, e1.type, 0, e1.section_header⟩,
             ⟨pyStrip e2.text, e2.page, e2.type, 1, e2.section_header⟩]).length
        else 0) + (pyStrip e3.text).length + (pyStrip e4.text).length +
          (pyStrip e5.text).length,
        some e5.page, e5.section_header, []⟩ := by
    intro n
    simp [formulaTailStage]
  obtain ⟨c1, hc1, hc1p⟩ := create_chunk_multi cfg
    ⟨pyStrip e1.text, e1.page, e1.type, 0, e1.section_header⟩
    ⟨pyStrip e2.text, e2.page, e2.type, 1, e2.section_header⟩ []
  obtain ⟨c2, hc2, hc2p⟩ : ∃ c, create_chunk cfg
      ((((if 0 < cfg.overlap_size then
          [⟨get_overlap_text cfg
              [⟨pyStrip e1.text, e1.page, e1.type, 0, e1.section_header⟩,
               ⟨pyStrip e2.text, e2.page, e2.type, 1, e2.section_header⟩],
            e3.page, "text", 2, ""⟩]
        else []) ++ [⟨pyStrip e3.text, e3.page, e3.type, 2, e3.section_header⟩])
          ++ [⟨pyStrip e4.text, e4.page, e4.type, 3, e4.section_header⟩])
          ++ [⟨pyStrip e5.text, e5.page, e5.type, 4, e5.section_header⟩]) =
        some c ∧ c.page = e3.page := by
    by_cases ho : 0 < cfg.overlap_size
    · rw [if_pos ho]
      obtain ⟨c, hc, hp⟩ := create_chunk_multi cfg
        ⟨get_overlap_text cfg
            [⟨pyStrip e1.text, e1.page, e1.type, 0, e1.section_header⟩,
             ⟨pyStrip e2.text, e2.page, e2.type, 1, e2.section_header⟩],
          e3.page, "text", 2, ""⟩
        ⟨pyStrip e3.text, e3.page, e3.type, 2, e3.section_header⟩
        [⟨pyStrip e4.text, e4.page, e4.type, 3, e4.section_header⟩,
         ⟨pyStrip e5.text, e5.page, e5.type, 4, e5.section_header⟩]
      exact ⟨c, hc, hp⟩
    · rw [if_neg ho]
      obtain ⟨c, hc, hp⟩ := create_chunk_multi cfg
        ⟨pyStrip e3.text, e3.page, e3.type, 2, e3.section_header⟩
        ⟨pyStrip e4.text, e4.page, e4.type, 3, e4.section_header⟩
        [⟨pyStrip e5.text, e5.page, e5.type, 4, e5.section_header⟩]
      exact ⟨c, hc, hp⟩
  refine ⟨c1, c2, ?_, hc1p, hc2p⟩
  have hne : ([e1, e2, e3, e4, e5] : List Element) ≠ [] := by simp
  rw [group_elements, if_neg hne]
  simp only [group_fold]
  rw [h1, h2, h3, h4, h5, hts]
  simp only [finalFlush, hc2, hc1]
  simp

/-- Witness for C4 on five concrete elements with pages 1,1,2,2,2. -/
theorem C4_page_boundary_witness :
    ∃ c1 c2, group_elements {} [demoE41, demoE42, demoE43, demoE44, demoE45]
        = [c1, c2] ∧
      c1.page = demoE41.page ∧ c2.page = demoE43.page :=
  C4_page_boundary {} demoE41 demoE42 demoE43 demoE44 demoE45
    (by decide) (by decide) (by decide) (by decide) (by decide)
    ⟨"", by decide⟩ (by decide)

/-- Membership after the backward-neighbor loop of `expandOne`. -/
theorem mem_foldl_before (idx nb : Nat) (s : Finset ℕ) (j : ℕ) :
    (j ∈ (List.range nb).foldl
        (fun s k => if k + 1 ≤ idx then insert (idx - (k + 1)) s else s) s) ↔
      j ∈ s ∨ (j < idx ∧ idx ≤ j + nb) := by
  induction nb with
  | zero => simp
  | succ n ih =>
    rw [List.range_succ, List.foldl_append, List.foldl_cons, List.foldl_nil]
    split_ifs with h
    · rw [Finset.mem_insert, ih]
      constructor
      · rintro (h' | h' | h') <;> [right; left; right] <;> first | exact h' | omega
      · rintro (h' | h')
        · exact Or.inr (Or.inl h')
        · by_cases hn : idx ≤ j + n
          · exact Or.inr (Or.inr ⟨h'.1, hn⟩)
          · left
            omega
    · rw [ih]
      constructor
      · rintro (h' | h') <;> [left; right] <;> first | exact h' | omega
      · rintro (h' | h') <;> [left; right] <;> first | exact h' | omega

/-- Membership after the forward-neighbor loop of `expandOne`. -/
theorem mem_foldl_after (idx na len : Nat) (s : Finset ℕ) (j : ℕ) :
    (j ∈ (List.range na).foldl
        (fun s k =>
          if idx + (k + 1) < len then insert (idx + (k + 1)) s else s) s) ↔
      j ∈ s ∨ (idx < j ∧ j ≤ idx + na ∧ j < len) := by
  induction na with
  | zero =>
    simp only [List.range_zero, List.foldl_nil]
    constructor
    · exact Or.inl
    · rintro (h' | h')
      · exact h'
      · exact absurd h'.2.1 (by omega)
  | succ n ih =>
    rw [List.range_succ, List.foldl_append, List.foldl_cons, List.foldl_nil]
    split_ifs with h
    · rw [Finset.mem_insert, ih]
      constructor
      · rintro (h' | h' | h') <;> [right; left; right] <;> first | exact h' | omega
      · rintro (h' | h')
        · exact Or.inr (Or.inl h')
        · by_cases hn : j ≤ idx + n
          · exact Or.inr (Or.inr ⟨h'.1, hn, h'.2.2⟩)
          · left
            omega
    · rw [ih]
      constructor
      · rintro (h' | h') <;> [left; right] <;> first | exact h' | omega
      · rintro (h' | h') <;> [left; right] <;> first | exact h' | omega

/-- Membership in the index set contributed by a single target. -/
theorem mem_expandOne (len nb na : Nat) (s : Finset ℕ) (idx j : ℕ) :
    j ∈ expandOne len nb na s idx ↔
      j ∈ s ∨ j = idx ∨ (j < idx ∧ idx ≤ j + nb) ∨
        (idx < j ∧ j ≤ idx + na ∧ j < len) := by
  simp only [expandOne]
  rw [mem_foldl_after, mem_foldl_before, Finset.mem_insert]
  tauto

/-- Membership in the whole expanded index set, with an arbitrary
accumulator. -/
theorem mem_expandedIndices_aux (len nb na : Nat) (targets : List Nat) :
    ∀ (s : Finset ℕ) (j : ℕ),
      (j ∈ targets.foldl (expandOne len nb na) s) ↔
        j ∈ s ∨ ∃ t ∈ targets, j = t ∨ (j < t ∧ t ≤ j + nb) ∨
          (t < j ∧ j ≤ t + na ∧ j < len) := by
  induction targets with
  | nil => intro s j; simp
  | cons t ts ih =>
    intro s j
    rw [List.foldl_cons, ih, mem_expandOne]
    simp only [List.mem_cons]
    constructor
    · rintro ((h | h) | ⟨u, hu, h⟩)
      · exact Or.inl h
      · exact Or.inr ⟨t, Or.inl rfl, h⟩
      · exact Or.inr ⟨u, Or.inr hu, h⟩
    · rintro (h | ⟨u, rfl | hu, h⟩)
      · exact Or.inl (Or.inl h)
      · exact Or.inl (Or.inr h)
      · exact Or.inr ⟨u, hu, h⟩

/-- Sorting a `Finset ℕ` bounded by `n` lists exactly the members of
`range n`, in order. -/
theorem sort_eq_filter_range (s : Finset ℕ) (n : ℕ)
    (h : ∀ x ∈ s, x < n) :
    s.sort (· ≤ ·) = (List.range n).filter (fun j => decide (j ∈ s)) := by
  have hperm : List.Perm (s.sort (· ≤ ·))
      ((List.range n).filter (fun j => decide (j ∈ s))) := by
    apply (List.perm_ext_iff_of_nodup (Finset.sort_nodup _ _)
      ((List.nodup_range n).filter _)).mpr
    intro a
    simp only [Finset.mem_sort, List.mem_filter, List.mem_range,
      decide_eq_true_eq]
    exact ⟨fun ha => ⟨h a ha, ha⟩, fun ha => ha.2⟩
  exact List.eq_of_perm_of_sorted hperm (Finset.sort_sorted _ _)
    ((List.sorted_le_range n).filter _)

/-- Indexing over a list of in-range indices always succeeds and agrees
with defaulted indexing. -/
theorem indexChunks_getElem (chunks : List SemanticChunk) :
    ∀ l : List ℕ, (∀ j ∈ l, j < chunks.length) →
      indexChunks chunks l =
        some (l.map (fun i => chunks.getD i default)) := by
  intro l
  induction l with
  | nil => intro _; rfl
  | cons a l ih =>
    intro h
    have ha : a < chunks.length := h a (by simp)
    have hrest := ih (fun j hj => h j (by simp [hj]))
    simp [indexChunks, hrest, List.getElem?_eq_getElem ha,
      List.getD_eq_getElem?_getD]

/-- Claim C7: (i) for in-range targets, `expand_context_with_neighbors`
returns exactly the chunks at the spec-side index set — each target plus up
to `nb` preceding and `na` following indices clipped to the list, duplicates
collapsed, sorted ascending; (ii) on 10 chunks with target 4, 1 before and 2
after it returns the chunks at indices 3,4,5,6 in that order; (iii) an empty
target list yields the empty list, never an error. -/
theorem C7_neighbor_expansion :
    (∀ (chunks : List SemanticChunk) (targets : List Nat) (nb na : Nat),
      (∀ t ∈ targets, t < chunks.length) →
      expand_context_with_neighbors chunks targets nb na =
        some ((expandSpecIndices chunks.length targets nb na).map
          (fun j => chunks.getD j default))) ∧
    (∀ chunks : List SemanticChunk, chunks.length = 10 →
      expand_context_with_neighbors chunks [4] 1 2 =
        some ([3, 4, 5, 6].map (fun j => chunks.getD j default))) ∧
    (∀ (chunks : List SemanticChunk) (nb na : Nat),
      expand_context_with_neighbors chunks [] nb na = some []) := by
  have main : ∀ (chunks : List SemanticChunk) (targets : List Nat)
      (nb na : Nat), (∀ t ∈ targets, t < chunks.length) →
      expand_context_with_neighbors chunks targets nb na =
        some ((expandSpecIndices chunks.length targets nb na).map
          (fun j => chunks.getD j default)) := by
    intro chunks targets nb na h
    have hbound : ∀ x ∈ expandedIndices chunks.length targets nb na,
        x < chunks.length := by
      intro x hx
      rw [expandedIndices, mem_expandedIndices_aux] at hx
      rcases hx with hx | ⟨t, ht, hx⟩
      · simp at hx
      · have := h t ht
        rcases hx with rfl | ⟨h1, h2⟩ | ⟨h1, h2, h3⟩ <;> omega
    unfold expand_context_with_neighbors
    rw [sort_eq_filter_range _ _ hbound, indexChunks_getElem]
    · have hfilter : (List.range chunks.length).filter
          (fun j => decide (j ∈ expandedIndices chunks.length targets nb na))
          = expandSpecIndices chunks.length targets nb na := by
        unfold expandSpecIndices
        apply List.filter_congr
        intro j hj
        rw [List.mem_range] at hj
        rw [Bool.eq_iff_iff]
        simp only [decide_eq_true_eq, List.any_eq_true, beq_iff_eq,
          Bool.or_eq_true, Bool.and_eq_true]
        rw [expandedIndices, mem_expandedIndices_aux]
        constructor
        · rintro (hx | ⟨t, ht, hx⟩)
          · simp at hx
          · refine ⟨t, ht, ?_⟩
            rcases hx with rfl | ⟨h1, h2⟩ | ⟨h1, h2, h3⟩
            · exact Or.inl (Or.inl rfl)
            · exact Or.inl (Or.inr ⟨by simpa using h1, by simpa using h2⟩)
            · exact Or.inr ⟨by simpa using h1, by simpa using h2⟩
        · rintro ⟨t, ht, hx⟩
          refine Or.inr ⟨t, ht, ?_⟩
          rcases hx with (rfl | ⟨h1, h2⟩) | ⟨h1, h2⟩
          · exact Or.inl rfl
          · exact Or.inr (Or.inl ⟨by simpa using h1, by simpa using h2⟩)
          · exact Or.inr (Or.inr ⟨by simpa using h1, by simpa using h2, hj⟩)
      rw [hfilter]
    · intro j hj
      rw [List.mem_filter, List.mem_range] at hj
      exact hj.1
  refine ⟨main, ?_, ?_⟩
  · intro chunks h10
    have hm := main chunks [4] 1 2 (by simp [h10])
    rw [hm, h10]
    rw [show expandSpecIndices 10 [4] 1 2 = [3, 4, 5, 6] from by decide]
  · intro chunks nb na
    have hm := main chunks [] nb na (by simp)
    rw [hm]
    simp [expandSpecIndices]

/-- Witness for C7 on ten concrete chunks. -/
theorem C7_neighbor_expansion_witness :
    expand_context_with_neighbors demoChunks [4] 1 2 =
      some ([3, 4, 5, 6].map (fun j => demoChunks.getD j default)) :=
  C7_neighbor_expansion.2.1 demoChunks (by decide)
